import Mathlib

/-!
Verification development for the social-media-agent pipeline control core.

The definitions below are a shallow embedding of the TypeScript sources of the
repository (the generate-post graph, its routing functions, node update
functions, the verify-links reducers, and the used-URL store operations).
External collaborators that the sources call (the LLM, the WHATWG URL parser,
JSON.parse, the natural-language date parser, the LangGraph store backend) are
modelled as parameters or nondeterministic outcomes, exactly at the interface
boundary the code uses them through.
-/

namespace SMA

/-! ## JavaScript-level helpers -/

/-- Insertion-order deduplication worker: mirrors iterating a JS `Set` that was
filled left to right (first occurrence kept), with `seen` the elements already
emitted. -/
def jsSetDedupGo : List String → List String → List String
  | [], _ => []
  | x :: xs, seen =>
    if x ∈ seen then jsSetDedupGo xs seen else x :: jsSetDedupGo xs (x :: seen)

/-- Embedding of `[...new Set(l)]` / `Array.from(new Set(l))`: keeps the first
occurrence of each element, in insertion order. -/
def jsSetDedup (l : List String) : List String := jsSetDedupGo l []

/-- Embedding of JS `s.includes(sub)` for a non-empty `sub`: `splitOn` yields
more than one piece exactly when `sub` occurs in `s`. -/
def jsIncludes (s sub : String) : Bool := (s.splitOn sub).length ≥ 2

/-- Truthiness of a JS string (`!!s`): false exactly for the empty string. -/
def jsStrTruthy : Option String → Bool
  | none => false
  | some s => s ≠ ""

/-! ## find-images/utils: image-URL blacklist filter (`filterUnwantedImageUrls`) -/

/-- Blacklisted endings, from `BLACKLISTED_IMAGE_URL_ENDINGS` in the source. -/
def BLACKLISTED_IMAGE_URL_ENDINGS : List String := [".svg", ".ico", ".bmp"]

/-- Blacklisted substrings, from `BLACKLISTED_IMAGE_URLS` in the source. -/
def BLACKLISTED_IMAGE_URLS : List String := ["img.shields.io", "contrib.rocks"]

/-- The predicate of the filter inside `filterUnwantedImageUrls`. `isValid`
stands for `isValidUrl` (the WHATWG `new URL` parser, an external collaborator
modelled as a parameter). -/
def keepUrl (isValid : String → Bool) (url : String) : Bool :=
  !(BLACKLISTED_IMAGE_URL_ENDINGS.any (fun ending => url.endsWith ending)) &&
  !(BLACKLISTED_IMAGE_URLS.any (fun b => jsIncludes url b)) &&
  isValid url

/-- Embedding of `filterUnwantedImageUrls` from `find-images/graph.ts`
(`utils.ts` of the repository): drops blacklisted endings, blacklisted hosts,
and URLs the URL parser rejects. -/
def filterUnwantedImageUrls (isValid : String → Bool) (urls : List String) :
    List String :=
  urls.filter (keepUrl isValid)

/-! ## verify-links/state.ts: reducers -/

/-- Embedding of `sharedLinksReducer`: an undefined update resets the field to
undefined; otherwise truthy links of the update are unioned (insertion-order
set, update first) with the current state and the result is filtered. -/
def sharedLinksReducer (isValid : String → Bool)
    (state update : Option (List String)) : Option (List String) :=
  match update with
  | none => none
  | some u =>
    some (filterUnwantedImageUrls isValid
      (jsSetDedup ((u.filter (fun x => x ≠ "")) ++ state.getD [])))

/-- Embedding of the `pageContents` reducer of `VerifyLinksResultAnnotation`:
an undefined update resets the field; otherwise the update is appended
(without dedup) to the accumulated contents. -/
def pageContentsReducer (state update : Option (List String)) :
    Option (List String) :=
  match update with
  | none => none
  | some u => some (state.getD [] ++ u)

/-! ## generate-post/state.ts: the pipeline state and partial updates -/

/-- Values of the `next` control field as the nodes of the repository set it
(`generate-post/state.ts`; `rewriteWithSplitUrl` appears in the TS type but no
node of the sources ever assigns it, so it is omitted). `end_` stands for the
LangGraph `END` sentinel `"__end__"`. -/
inductive NextTarget where
  | schedulePost
  | rewritePost
  | updateScheduleDate
  | unknownResponse
  | end_
deriving DecidableEq, Repr

/-- Observable content of a JS `Date` that `validateScheduleDate` and the
schedule comparison use: its epoch value (for `<`), `getDay()`, and
`getHours()`. -/
structure JsDate where
  epochMs : Int
  day : Nat
  hours : Nat
deriving DecidableEq, Repr

/-- Embedding of `DateType` from `types.ts`: a priority/regular slot name or a
concrete `Date`. -/
inductive DateType where
  | slot (s : String)
  | date (d : JsDate)
deriving DecidableEq, Repr

/-- The pipeline state, per `GeneratePostAnnotation` in
`generate-post/state.ts`, restricted to the fields the verified claims touch.
Defaults are the annotation's `default()` values. -/
structure GeneratePostState where
  links : List String := []
  report : String := ""
  pageContents : Option (List String) := some []
  relevantLinks : Option (List String) := some []
  imageOptions : Option (List String) := some []
  post : String := ""
  scheduleDate : Option DateType := none
  userResponse : Option String := none
  next : Option NextTarget := none
  status : Option String := none
  condenseCount : Int := 0
deriving DecidableEq, Repr

/-- A partial state update (`GeneratePostUpdate`). The outer `Option` is key
presence; for fields whose TS type is itself optional the inner `Option`
distinguishes an explicit `undefined` (which the overwrite/reset reducers
store) from a value. -/
structure GeneratePostUpdate where
  links : Option (List String) := none
  report : Option String := none
  pageContents : Option (Option (List String)) := none
  relevantLinks : Option (Option (List String)) := none
  imageOptions : Option (Option (List String)) := none
  post : Option String := none
  scheduleDate : Option DateType := none
  userResponse : Option (Option String) := none
  next : Option (Option NextTarget) := none
  status : Option String := none
  condenseCount : Option Int := none
deriving DecidableEq, Repr

/-- Folding one partial update into the canonical state with the per-field
reducers of `GeneratePostAnnotation`: overwrite for the scalar fields, append
for `pageContents`, `sharedLinksReducer` for `relevantLinks` and
`imageOptions`. -/
def applyUpdate (isValid : String → Bool) (s : GeneratePostState)
    (u : GeneratePostUpdate) : GeneratePostState where
  links := u.links.getD s.links
  report := u.report.getD s.report
  pageContents :=
    match u.pageContents with
    | none => s.pageContents
    | some v => pageContentsReducer s.pageContents v
  relevantLinks :=
    match u.relevantLinks with
    | none => s.relevantLinks
    | some v => sharedLinksReducer isValid s.relevantLinks v
  imageOptions :=
    match u.imageOptions with
    | none => s.imageOptions
    | some v => sharedLinksReducer isValid s.imageOptions v
  post := u.post.getD s.post
  scheduleDate :=
    match u.scheduleDate with
    | none => s.scheduleDate
    | some d => some d
  userResponse := u.userResponse.getD s.userResponse
  next := u.next.getD s.next
  status :=
    match u.status with
    | none => s.status
    | some v => some v
  condenseCount := u.condenseCount.getD s.condenseCount

/-! ## generate-post/constants.ts -/

/-- Modelled from the spec: `constants.ts` of the generate-post agent is not
part of the source dump (only its importers and tests are); the spec fixes the
platform character limit at 280, and the repository's tests assert
`TWITTER_MAX_CHAR_LENGTH` equals 280. -/
def TWITTER_MAX_CHAR_LENGTH : Nat := 280

/-- Maximum number of condense attempts, from `MAX_CONDENSE_ATTEMPTS` in
`routing.ts` and `condense-post.ts`. -/
def MAX_CONDENSE_ATTEMPTS : Int := 3

/-! ## generate-post/nodes/routing.ts -/

/-- Routes returned by the post-generation/condense/rewrite routers. -/
inductive PostGenerationRoute where
  | condensePost
  | humanReview
  | end_
deriving DecidableEq, Repr

/-- Routes returned by `routeAfterHumanResponse`. -/
inductive HumanResponseRoute where
  | schedulePost
  | rewritePost
  | updateScheduleDate
  | unknownResponse
  | end_
deriving DecidableEq, Repr

/-- Embedding of `routeAfterPostGeneration` from `routing.ts` (the local
`exceedsLimit`/`canCondense` booleans are inlined into the condition). -/
def routeAfterPostGeneration (s : GeneratePostState) : PostGenerationRoute :=
  if s.post = "" then .end_
  else if s.post.length > TWITTER_MAX_CHAR_LENGTH ∧
      s.condenseCount < MAX_CONDENSE_ATTEMPTS then .condensePost
  else .humanReview

/-- Embedding of `routeAfterCondense` from `routing.ts` (the local
`withinLimit`/`canCondenseMore` booleans are inlined). -/
def routeAfterCondense (s : GeneratePostState) : PostGenerationRoute :=
  if s.post = "" then .end_
  else if s.post.length ≤ TWITTER_MAX_CHAR_LENGTH then .humanReview
  else if s.condenseCount < MAX_CONDENSE_ATTEMPTS then .condensePost
  else .humanReview

/-- Embedding of `routeAfterRewrite` from `routing.ts` (the local booleans are
inlined). -/
def routeAfterRewrite (s : GeneratePostState) : PostGenerationRoute :=
  if s.post = "" then .humanReview
  else if s.post.length > TWITTER_MAX_CHAR_LENGTH ∧
      s.condenseCount < MAX_CONDENSE_ATTEMPTS then .condensePost
  else .humanReview

/-- Embedding of `routeAfterHumanResponse` from `routing.ts`: dispatch on the
`next` field set by the human-review node (absent or `END` terminate). -/
def routeAfterHumanResponse (s : GeneratePostState) : HumanResponseRoute :=
  match s.next with
  | none => .end_
  | some .end_ => .end_
  | some .schedulePost => .schedulePost
  | some .rewritePost => .rewritePost
  | some .updateScheduleDate => .updateScheduleDate
  | some .unknownResponse => .unknownResponse

/-! ## Embedding of untyped JS values (the `unknown` resume payload) -/

/-- Untyped JS value, as the human-review interrupt receives it. -/
inductive JsVal where
  | jstr (s : String)
  | jnum (n : Int)
  | jbool (b : Bool)
  | jnull
  | jarr (elems : List JsVal)
  | jobj (fields : List (String × JsVal))

/-- Property read `v[name]` on a JS value: defined only on plain objects (the
code never indexes arrays by these names, and such reads yield `undefined`). -/
def getField (v : JsVal) (name : String) : Option JsVal :=
  match v with
  | .jobj fields => (fields.find? (fun f => f.1 = name)).map (fun f => f.2)
  | _ => none

/-- JS truthiness of a value. -/
def jsTruthy : JsVal → Bool
  | .jstr s => s ≠ ""
  | .jnum n => n ≠ 0
  | .jbool b => b
  | .jnull => false
  | .jarr _ => true
  | .jobj _ => true

/-- Whether `typeof v === "object"` holds (arrays and `null` included). -/
def jsTypeofObject : JsVal → Bool
  | .jobj _ => true
  | .jarr _ => true
  | .jnull => true
  | _ => false

mutual

/-- Embedding of the JS `String(v)` coercion. -/
def jsToString : JsVal → String
  | .jstr s => s
  | .jnum n => toString n
  | .jbool b => if b then "true" else "false"
  | .jnull => "null"
  | .jarr es => jsToStringElems es
  | .jobj _ => "[object Object]"

/-- Array elements rendered and joined with commas, as `String([...])` does. -/
def jsToStringElems : List JsVal → String
  | [] => ""
  | [e] => jsToString e
  | e :: es => jsToString e ++ "," ++ jsToStringElems es

end

mutual

/-- Embedding of `JSON.stringify` (enough of it for the values the nodes
serialize; only used to fill the feedback string of the unknown-response
update). -/
def jsonStringify : JsVal → String
  | .jstr s => "\"" ++ s ++ "\""
  | .jnum n => toString n
  | .jbool b => if b then "true" else "false"
  | .jnull => "null"
  | .jarr es => "[" ++ jsonStringifyElems es ++ "]"
  | .jobj fs => "\x7b" ++ jsonStringifyFields fs ++ "\x7d"

/-- Serialized array elements. -/
def jsonStringifyElems : List JsVal → String
  | [] => ""
  | [e] => jsonStringify e
  | e :: es => jsonStringify e ++ "," ++ jsonStringifyElems es

/-- Serialized object fields. -/
def jsonStringifyFields : List (String × JsVal) → String
  | [] => ""
  | [f] => "\"" ++ f.1 ++ "\":" ++ jsonStringify f.2
  | f :: fs => "\"" ++ f.1 ++ "\":" ++ jsonStringify f.2 ++ "," ++ jsonStringifyFields fs

end

/-- First truthy value of `a || b`, as an `Option` that is `some` exactly when
the JS expression is truthy. -/
def truthyOpt (o : Option JsVal) : Option JsVal :=
  o.bind (fun v => if jsTruthy v then some v else none)

/-- Embedding of the JS `a || b` selection over possibly-absent values. -/
def jsOr (a b : Option JsVal) : Option JsVal :=
  match truthyOpt a with
  | some v => some v
  | none => truthyOpt b

/-! ## generate-post/nodes/human-node.ts -/

/-- The four permitted response kinds (`HumanResponseType` in `types.ts`). -/
inductive HumanResponseType where
  | accept
  | edit
  | ignore
  | respond
deriving DecidableEq, Repr

/-- A parsed human response: its kind plus the raw `args` value. -/
structure HumanResponse where
  rtype : HumanResponseType
  args : Option JsVal

/-- The first branch of `parseHumanResponse`: a value that is an object whose
`type` property is a string among the four permitted kinds is returned as a
typed response (with its `args` property carried along). -/
def typedResponseOf (v : JsVal) : Option HumanResponse :=
  match v with
  | .jobj _ =>
    match getField v "type" with
    | some (.jstr t) =>
      if t = "accept" then some ⟨.accept, getField v "args"⟩
      else if t = "edit" then some ⟨.edit, getField v "args"⟩
      else if t = "ignore" then some ⟨.ignore, getField v "args"⟩
      else if t = "respond" then some ⟨.respond, getField v "args"⟩
      else none
    | _ => none
  | _ => none

/-- Embedding of `parseHumanResponse` from `human-node.ts`. `jsonParse` stands
for `JSON.parse` (returning `none` where the JS call throws). Precedence as in
the source: typed object; keyword strings; JSON-encoded typed object; any other
non-empty string as edit feedback; object with a truthy feedback/message/text
field as edit feedback; everything else as an unclassified `respond` carrying
the raw value. -/
def parseHumanResponse (jsonParse : String → Option JsVal) (response : JsVal) :
    HumanResponse :=
  match typedResponseOf response with
  | some hr => hr
  | none =>
    match response with
    | .jstr s =>
      let trimmed := s.trim.toLower
      if trimmed = "accept" || trimmed = "approve" || trimmed = "ok" ||
          trimmed = "yes" then ⟨.accept, none⟩
      else if trimmed = "ignore" || trimmed = "discard" || trimmed = "skip" ||
          trimmed = "no" then ⟨.ignore, none⟩
      else
        match (jsonParse s).bind typedResponseOf with
        | some hr => hr
        | none =>
          if trimmed ≠ "" then ⟨.edit, some (.jobj [("feedback", .jstr s)])⟩
          else ⟨.respond, some (.jobj [("raw", response)])⟩
    | _ =>
      if jsTruthy response && jsTypeofObject response then
        match jsOr (getField response "feedback")
            (jsOr (getField response "message") (getField response "text")) with
        | some v =>
          ⟨.edit, some (.jobj [("feedback", .jstr (jsToString v))])⟩
        | none => ⟨.respond, some (.jobj [("raw", response)])⟩
      else ⟨.respond, some (.jobj [("raw", response)])⟩

/-- Embedding of `humanReviewNode` from `human-node.ts` as the partial update
it returns, given the resume payload the interrupt hands back. If no post
exists the node terminates immediately; otherwise it dispatches on the parsed
response kind. The TS cast `args?.feedback as string` stores the raw value;
we read it through its JS string rendering. -/
def humanReviewNodeUpdate (jsonParse : String → Option JsVal)
    (s : GeneratePostState) (response : JsVal) : GeneratePostUpdate :=
  if s.post = "" then { next := some (some .end_) }
  else
    let hr := parseHumanResponse jsonParse response
    match hr.rtype with
    | .accept => { next := some (some .schedulePost) }
    | .edit =>
      { userResponse := some ((hr.args.bind (fun a => getField a "feedback")).map jsToString)
        next := some (some .rewritePost) }
    | .ignore => { next := some (some .end_) }
    | .respond =>
      let args := hr.args.getD (.jobj [])
      match jsOr (getField args "scheduleDate") (getField args "date") with
      | some v =>
        { userResponse := some (some (jsToString v))
          next := some (some .updateScheduleDate) }
      | none =>
        match jsOr (getField args "post")
            (jsOr (getField args "content") (getField args "text")) with
        | some v =>
          { userResponse := some (some (jsToString v))
            next := some (some .rewritePost) }
        | none =>
          { userResponse := some (some (jsonStringify args))
            next := some (some .unknownResponse) }

/-- Embedding of `unknownResponseNode` from `human-node.ts`: clears the
transient fields and (per its wiring in the phase-2 builder) loops back to
human review. -/
def unknownResponseNodeUpdate : GeneratePostUpdate :=
  { userResponse := some none, next := some none }

/-! ## LLM collaborator outcomes -/

/-- Outcome of a `model.invoke` call: the generated text, or a thrown error
(with its message), as the try/catch blocks of the nodes observe it. -/
inductive LLMOutcome where
  | success (text : String)
  | failure (msg : String)
deriving DecidableEq, Repr

/-- Helper shared by several nodes:
`relevantLinks && relevantLinks.length > 0 ? relevantLinks : links`. -/
def linksToUse (s : GeneratePostState) : List String :=
  match s.relevantLinks with
  | some ls => if ls ≠ [] then ls else s.links
  | none => s.links

/-- Helper: `linksToUse[0] || ""`. -/
def primaryLink (s : GeneratePostState) : String := (linksToUse s).headD ""

/-! ## generate-post/nodes/condense-post.ts -/

/-- Embedding of `condensePost` as the update it returns. Every branch
increments `condenseCount`; the guard branch (entered only when the counter
already reached the maximum) and the error branch leave the post unchanged. -/
def condensePostUpdate (s : GeneratePostState) (r : LLMOutcome) :
    GeneratePostUpdate :=
  if s.condenseCount ≥ MAX_CONDENSE_ATTEMPTS then
    { condenseCount := some (s.condenseCount + 1)
      status := some "condense_max_attempts" }
  else
    match r with
    | .success t =>
      { post := some t
        condenseCount := some (s.condenseCount + 1)
        status := some "condense_success" }
    | .failure _ =>
      { condenseCount := some (s.condenseCount + 1)
        status := some "condense_failed" }

/-! ## generate-post/nodes/generate-post.ts -/

/-- Embedding of `generatePost` as the update it returns: a fallback post when
no report exists or the model call fails (leaving the counter untouched), and
on success the generated post with `userResponse` cleared and `condenseCount`
reset to 0. -/
def generatePostUpdate (s : GeneratePostState) (r : LLMOutcome) :
    GeneratePostUpdate :=
  if s.report = "" || s.report.trim = "" then
    { post := some ("Check out this interesting content!\n\n" ++ primaryLink s)
      status := some "post_generated_no_report" }
  else
    match r with
    | .success t =>
      { post := some t
        userResponse := some none
        condenseCount := some 0
        status := some (if jsStrTruthy s.userResponse then
          "post_generated_from_feedback" else "post_generated") }
    | .failure _ =>
      { post := some ("Exciting new content to explore!\n\n" ++ primaryLink s)
        status := some "post_generation_failed" }

/-! ## generate-post/nodes/rewrite-post.ts -/

/-- Embedding of `rewritePost` as the update it returns: skipped without
feedback, and on success the rewritten post with the transient fields cleared
and `condenseCount` reset to 0. -/
def rewritePostUpdate (s : GeneratePostState) (r : LLMOutcome) :
    GeneratePostUpdate :=
  if !(jsStrTruthy s.userResponse) then
    { userResponse := some none
      next := some none
      status := some "rewrite_skipped_no_feedback" }
  else
    match r with
    | .success t =>
      { post := some t
        userResponse := some none
        next := some none
        status := some "rewrite_completed"
        condenseCount := some 0 }
    | .failure _ =>
      { userResponse := some none
        next := some none
        status := some "rewrite_failed" }

/-! ## generate-post/nodes/generate-report.ts -/

/-- Embedding of `generateReport` as the update it returns. -/
def generateReportUpdate (s : GeneratePostState) (r : LLMOutcome) :
    GeneratePostUpdate :=
  if linksToUse s = [] then
    { report := some "Unable to generate report: No source links available."
      status := some "report_skipped_no_content" }
  else
    let contentToAnalyze :=
      match s.pageContents with
      | some (c :: cs) => String.intercalate "\n\n---\n\n" (c :: cs)
      | _ => "Source links: " ++ String.intercalate ", " (linksToUse s)
    if contentToAnalyze = "" || contentToAnalyze.trim = "" then
      { report := some "Unable to generate report: No content available."
        status := some "report_skipped_no_content" }
    else
      match r with
      | .success t => { report := some t, status := some "report_generated" }
      | .failure msg =>
        { report := some ("Error generating report: " ++ msg)
          status := some "report_failed" }

/-! ## generate-post/nodes/store-operations.ts -/

/-- Store namespace, `USED_URLS_NAMESPACE` in `store-operations.ts`. -/
def USED_URLS_NAMESPACE : List String := ["saved_data", "used_urls"]

/-- Store key, `URLS_KEY` in `store-operations.ts`. -/
def URLS_KEY : String := "urls"

/-- An address in the LangGraph store: a namespace plus a key. -/
abbrev StoreAddr := List String × String

/-- Pure keyed-store model: a store maps each namespace/key address to the
optional `{ data: string[] }` record stored there (represented by its `data`
array). -/
abbrev KeyedStore := StoreAddr → Option (List String)

/-- Embedding of `getSavedUrls` over the keyed store (read path without
failures; the failure modes are modelled separately below): reads the record
at `(USED_URLS_NAMESPACE, URLS_KEY)` and yields its `data`, or `[]`. -/
def getSavedUrlsStore (store : KeyedStore) : List String :=
  (store (USED_URLS_NAMESPACE, URLS_KEY)).getD []

/-- Embedding of `saveUsedUrls` over the keyed store: with no URLs it returns
without writing; otherwise it reads the current record, merges and
deduplicates (`[...new Set([...existing, ...urls])]`), and writes the result
back at `(USED_URLS_NAMESPACE, URLS_KEY)`. -/
def saveUsedUrlsStore (store : KeyedStore) (urls : List String) : KeyedStore :=
  if urls = [] then store
  else
    fun addr =>
      if addr = (USED_URLS_NAMESPACE, URLS_KEY) then
        some (jsSetDedup (getSavedUrlsStore store ++ urls))
      else store addr

/-- Embedding of `clearSavedUrls` over the keyed store: deletes the record at
`(USED_URLS_NAMESPACE, URLS_KEY)`. -/
def clearSavedUrlsStore (store : KeyedStore) : KeyedStore :=
  fun addr =>
    if addr = (USED_URLS_NAMESPACE, URLS_KEY) then none else store addr

/-- Embedding of `checkUrlsUsage` given the saved set: partitions the
candidates into (new, duplicate), preserving order, without mutating the
store. -/
def checkUrlsUsage (saved : List String) (urls : List String) :
    List String × List String :=
  (urls.filter (fun u => !(saved.contains u)),
   urls.filter (fun u => saved.contains u))

/-- Failure-mode model of the store a node's config carries: whether
`config.store` exists, the outcome of `store.get` (a thrown error, or the
optional item), and the outcome of `store.put`. -/
structure StoreEnv where
  hasStore : Bool
  getOutcome : Except String (Option (List String))
  putOutcome : Except String Unit
deriving Repr

/-- Embedding of `getSavedUrls` with its failure handling: no store or a
thrown read both degrade to `[]`, as does an absent record or absent `data`
array. -/
def getSavedUrlsEnv (env : StoreEnv) : List String :=
  if !env.hasStore then []
  else
    match env.getOutcome with
    | .error _ => []
    | .ok none => []
    | .ok (some data) => data

/-- Embedding of `checkUrlsUsage` reading through the failure-mode store. -/
def checkUrlsUsageEnv (env : StoreEnv) (urls : List String) :
    List String × List String :=
  checkUrlsUsage (getSavedUrlsEnv env) urls

/-- Embedding of `saveUsedUrls` with its failure handling: no store or no URLs
return without writing; otherwise the merged list is written, and a failing
`store.put` is caught, logged — and re-thrown (`throw error` in the catch
block). The result is the written record, or the propagated exception. -/
def saveUsedUrlsEnv (env : StoreEnv) (urls : List String) :
    Except String (Option (List String)) :=
  if !env.hasStore then .ok none
  else if urls = [] then .ok none
  else
    let existingUrls := getSavedUrlsEnv env
    let allUrls := jsSetDedup (existingUrls ++ urls)
    match env.putOutcome with
    | .error e => .error e
    | .ok _ => .ok (some allUrls)

/-! ## generate-post/nodes/check-urls.ts -/

/-- Embedding of `checkUrls` as the update it returns, given the configured
skip flag and the saved-URL set the store read produced. -/
def checkUrlsUpdate (skipCheck : Bool) (saved : List String)
    (s : GeneratePostState) : GeneratePostUpdate :=
  if skipCheck then { status := some "url_check_skipped" }
  else if s.links = [] then { status := some "url_check_skipped_no_links" }
  else
    let newUrls := (checkUrlsUsage saved s.links).1
    if newUrls = [] then
      { next := some (some .end_)
        userResponse :=
          some (some "All provided URLs have already been used for post generation")
        status := some "url_check_all_duplicates" }
    else
      { links := some newUrls
        condenseCount := some 0
        status := some (if newUrls.length < s.links.length then
          "url_check_filtered" else "url_check_all_new") }

/-! ## generate-post/nodes/verify-links node (human-node.ts companion) -/

/-- Embedding of `verifyLinksNode` as the update it returns, the verify-links
subgraph outcome being passed in (`pc`, `rl`, `io` are the subgraph's
`pageContents`, `relevantLinks` and `imageOptions` results). -/
def verifyLinksUpdate (s : GeneratePostState) (pc : Option (List String))
    (rl : Option (List String)) (io : Option (List String)) :
    GeneratePostUpdate :=
  if s.links = [] then { status := some "verify_links_skipped_no_links" }
  else
    { pageContents := some pc
      relevantLinks := some (some (match rl with
        | some ls => if ls ≠ [] then ls else s.links
        | none => s.links))
      imageOptions := some io
      status := some "verify_links_completed" }

/-! ## generate-post/nodes/date-parser.ts: validation -/

/-- Allowed posting days, `ALLOWED_DAYS` in `constants.ts` as the source dump
carries it (all seven day names, indexed by `Date.getDay()`). -/
def ALLOWED_DAYS : List String :=
  ["Monday", "Tuesday", "Wednesday", "Thursday", "Friday", "Saturday",
   "Sunday"]

/-- Result of `parseScheduleDate` (`ParsedDateResult` in `date-parser.ts`).
The parser itself performs natural-language date parsing, an external
collaborator per the spec, and is taken as a parameter below. -/
structure ParsedDateResult where
  success : Bool
  date : Option DateType := none
  error : Option String := none
deriving DecidableEq, Repr

/-- Result of `validateScheduleDate`. -/
structure ValidationResult where
  valid : Bool
  error : Option String := none
deriving DecidableEq, Repr

/-- Embedding of `validateScheduleDate` from `date-parser.ts`: priority slots
are always valid; a concrete date must not be in the past, its day name must
appear in `ALLOWED_DAYS` (vacuous, since the table lists all seven days), and
its hours must lie in [8, 17). -/
def validateScheduleDate (now : JsDate) (d : DateType) : ValidationResult :=
  match d with
  | .slot _ => { valid := true }
  | .date dt =>
    if dt.epochMs < now.epochMs then
      { valid := false, error := some "Schedule date must be in the future" }
    else
      let dayName := (ALLOWED_DAYS.get? dt.day).getD "undefined"
      if !(ALLOWED_DAYS.contains dayName) then
        { valid := false, error := some ("Posting not allowed on " ++ dayName) }
      else if dt.hours < 8 || dt.hours ≥ 17 then
        { valid := false
          error := some "Posting only allowed between 8:00 AM and 5:00 PM" }
      else { valid := true }

/-! ## generate-post/nodes/update-schedule-date.ts -/

/-- Embedding of `updateScheduleDate` as the update it returns. `parse` stands
for `parseScheduleDate` and `now` for the clock `validateScheduleDate` reads.
Parse or validation failure surfaces an error string in `userResponse` and
does not touch `scheduleDate`; only success writes the new date. -/
def updateScheduleDateUpdate (parse : String → ParsedDateResult) (now : JsDate)
    (s : GeneratePostState) : GeneratePostUpdate :=
  if !(jsStrTruthy s.userResponse) then { userResponse := some none }
  else
    let parseResult := parse ((s.userResponse).getD "")
    if !parseResult.success || parseResult.date = none then
      { userResponse :=
          some (some ("Error: " ++ parseResult.error.getD "undefined")) }
    else
      match parseResult.date with
      | none =>
        { userResponse :=
            some (some ("Error: " ++ parseResult.error.getD "undefined")) }
      | some d =>
        let validationResult := validateScheduleDate now d
        if !validationResult.valid then
          { userResponse :=
              some (some ("Error: " ++ validationResult.error.getD "undefined")) }
        else
          { scheduleDate := some d
            userResponse := some none }

/-- Embedding of the `schedulePost` node exported by
`update-schedule-date.ts`: logs the approved post and clears the navigation
fields. -/
def schedulePostUpdate : GeneratePostUpdate :=
  { next := some none, userResponse := some none }

/-! ## generate-post/graph.ts: static wiring -/

/-- The node names the final builder in `generate-post/graph.ts` registers
with `addNode`. -/
def generatePostGraphNodes : List String :=
  ["checkUrls", "generateReport", "generatePost", "condensePost",
   "humanReview", "rewritePost", "updateScheduleDate", "schedulePost"]

/-- `HUMAN_RESPONSE_ROUTE_MAP` from `routing.ts`, as route-name/target-node
pairs (`end` maps to the `END` sentinel `"__end__"`). -/
def HUMAN_RESPONSE_ROUTE_MAP : List (String × String) :=
  [("schedulePost", "schedulePost"), ("rewritePost", "rewritePost"),
   ("updateScheduleDate", "updateScheduleDate"),
   ("unknownResponse", "unknownResponse"), ("end", "__end__")]

/-- `POST_GENERATION_ROUTE_MAP` from `routing.ts`. -/
def POST_GENERATION_ROUTE_MAP : List (String × String) :=
  [("condensePost", "condensePost"), ("humanReview", "humanReview"),
   ("end", "__end__")]

/-- `URL_CHECK_ROUTE_MAP` from `check-urls.ts`. -/
def URL_CHECK_ROUTE_MAP : List (String × String) :=
  [("verifyLinks", "verifyLinks"), ("end", "__end__")]

/-! ## The pipeline as a transition system

The configuration is the node about to run (or `none` once a terminal route
was taken) together with the merged state. The step relation follows the
routers and route maps of the sources; external outcomes (LLM calls, the
verify-links subgraph, the resume payload) are nondeterministic arguments.
Where the final builder's route maps name a target the builder never
registers (`verifyLinks` after the URL check, `unknownResponse` after human
review — see the claim about the unknown-response loop), the relation follows
the named target and the companion nodes' own wiring; this only adds
transitions, so the safety invariants proved below hold a fortiori for the
runs the compiled graph can actually perform. -/

/-- Nodes of the generate-post pipeline (the registered nodes plus the two
route-map targets described above). -/
inductive GNode where
  | checkUrls
  | verifyLinks
  | generateReport
  | generatePost
  | condensePost
  | humanReview
  | unknownResponse
  | rewritePost
  | updateScheduleDate
  | schedulePost
deriving DecidableEq, Repr

/-- A pipeline configuration: the node about to execute (`none` = terminal)
and the current merged state. -/
structure Cfg where
  node : Option GNode
  state : GeneratePostState
deriving DecidableEq, Repr

/-- External environment of a run: the configured flags and collaborators the
step relation needs (store read result, URL parser, JSON parser, date parser,
clock). -/
structure PipelineEnv where
  skipUsedUrlsCheck : Bool
  savedUrls : List String
  isValidUrl : String → Bool
  jsonParse : String → Option JsVal
  parseDate : String → ParsedDateResult
  now : JsDate

/-- Target node of a `PostGenerationRoute` under `POST_GENERATION_ROUTE_MAP`. -/
def postGenTarget : PostGenerationRoute → Option GNode
  | .condensePost => some .condensePost
  | .humanReview => some .humanReview
  | .end_ => none

/-- Target node of a `HumanResponseRoute` under `HUMAN_RESPONSE_ROUTE_MAP`. -/
def humanTarget : HumanResponseRoute → Option GNode
  | .schedulePost => some .schedulePost
  | .rewritePost => some .rewritePost
  | .updateScheduleDate => some .updateScheduleDate
  | .unknownResponse => some .unknownResponse
  | .end_ => none

/-- Embedding of `routeAfterUrlCheck` composed with `URL_CHECK_ROUTE_MAP`:
`END` when the update set `next` to `END`, the verify-links stage otherwise. -/
def urlCheckTarget (u : GeneratePostUpdate) : Option GNode :=
  if u.next = some (some .end_) then none else some .verifyLinks

/-- One step of the pipeline: run the node the configuration points at,
merge its update, and follow the router/edge of the builder. -/
inductive Step (env : PipelineEnv) : Cfg → Cfg → Prop where
  | checkUrls (s : GeneratePostState) :
    Step env ⟨some .checkUrls, s⟩
      (let u := checkUrlsUpdate env.skipUsedUrlsCheck env.savedUrls s
       ⟨urlCheckTarget u, applyUpdate env.isValidUrl s u⟩)
  | verifyLinks (s : GeneratePostState) (pc rl io : Option (List String)) :
    Step env ⟨some .verifyLinks, s⟩
      ⟨some .generateReport, applyUpdate env.isValidUrl s (verifyLinksUpdate s pc rl io)⟩
  | generateReport (s : GeneratePostState) (r : LLMOutcome) :
    Step env ⟨some .generateReport, s⟩
      ⟨some .generatePost, applyUpdate env.isValidUrl s (generateReportUpdate s r)⟩
  | generatePost (s : GeneratePostState) (r : LLMOutcome) :
    Step env ⟨some .generatePost, s⟩
      (let t := applyUpdate env.isValidUrl s (generatePostUpdate s r)
       ⟨postGenTarget (routeAfterPostGeneration t), t⟩)
  | condensePost (s : GeneratePostState) (r : LLMOutcome) :
    Step env ⟨some .condensePost, s⟩
      (let t := applyUpdate env.isValidUrl s (condensePostUpdate s r)
       ⟨postGenTarget (routeAfterCondense t), t⟩)
  | humanReview (s : GeneratePostState) (response : JsVal) :
    Step env ⟨some .humanReview, s⟩
      (let t := applyUpdate env.isValidUrl s
        (humanReviewNodeUpdate env.jsonParse s response)
       ⟨humanTarget (routeAfterHumanResponse t), t⟩)
  | unknownResponse (s : GeneratePostState) :
    Step env ⟨some .unknownResponse, s⟩
      ⟨some .humanReview, applyUpdate env.isValidUrl s unknownResponseNodeUpdate⟩
  | rewritePost (s : GeneratePostState) (r : LLMOutcome) :
    Step env ⟨some .rewritePost, s⟩
      (let t := applyUpdate env.isValidUrl s (rewritePostUpdate s r)
       ⟨postGenTarget (routeAfterRewrite t), t⟩)
  | updateScheduleDate (s : GeneratePostState) :
    Step env ⟨some .updateScheduleDate, s⟩
      ⟨some .humanReview, applyUpdate env.isValidUrl s
        (updateScheduleDateUpdate env.parseDate env.now s)⟩
  | schedulePost (s : GeneratePostState) :
    Step env ⟨some .schedulePost, s⟩
      ⟨none, applyUpdate env.isValidUrl s schedulePostUpdate⟩

/-- Initial state of a run invoked with the given input links (annotation
defaults for every other field, `condenseCount = 0`). -/
def initialState (links : List String) : GeneratePostState :=
  { links := links }

/-- Configurations reachable by a run started on the given links (the builder
wires `START` to `checkUrls`). -/
inductive Reachable (env : PipelineEnv) (links : List String) : Cfg → Prop where
  | init : Reachable env links ⟨some .checkUrls, initialState links⟩
  | step {c c' : Cfg} : Reachable env links c → Step env c c' →
      Reachable env links c'

/-! ## Spec-side definition for the router refinement claim -/

/-- Modelled from the spec's words (for comparison with the source routers):
terminate when no post text exists; condense when the post length exceeds the
platform limit (280) and the retry counter is below the maximum (3); human
review otherwise. -/
def specCondenseRoute (s : GeneratePostState) : PostGenerationRoute :=
  if s.post = "" then .end_
  else if s.post.length > 280 ∧ s.condenseCount < 3 then .condensePost
  else .humanReview

/-- A 320-character post (for the spec's concrete router scenario). -/
def post320 : String := String.mk (List.replicate 320 'a')

/-- A 260-character post (for the spec's concrete router scenario). -/
def post260 : String := String.mk (List.replicate 260 'a')

/-- Folding a list of fan-out task outputs (each a defined link array) into
the canonical set-valued field through `sharedLinksReducer`, starting from the
annotation's default `[]`, in the order the tasks completed. -/
def foldSharedLinks (isValid : String → Bool) (updates : List (List String)) :
    Option (List String) :=
  updates.foldl (fun st u => sharedLinksReducer isValid st (some u)) (some [])

/-! ## Helper lemmas -/

theorem mem_jsSetDedupGo (x : String) :
    ∀ (l seen : List String), x ∈ jsSetDedupGo l seen ↔ x ∈ l ∧ x ∉ seen := by
  intro l
  induction l with
  | nil => intro seen; simp [jsSetDedupGo]
  | cons y ys ih =>
    intro seen
    by_cases hy : y ∈ seen
    · by_cases hx : x = y
      · subst hx
        simp [jsSetDedupGo, hy, ih]
      · simp [jsSetDedupGo, hy, ih, hx]
    · by_cases hx : x = y
      · subst hx
        simp [jsSetDedupGo, hy, ih]
      · simp [jsSetDedupGo, hy, ih, hx]

theorem mem_jsSetDedup (x : String) (l : List String) :
    x ∈ jsSetDedup l ↔ x ∈ l := by
  simp [jsSetDedup, mem_jsSetDedupGo]

theorem mem_sharedLinksReducer (isValid : String → Bool) (st u : List String)
    (x : String) :
    x ∈ (sharedLinksReducer isValid (some st) (some u)).getD [] ↔
      ((x ∈ u ∧ x ≠ "") ∨ x ∈ st) ∧ keepUrl isValid x = true := by
  simp only [sharedLinksReducer, filterUnwantedImageUrls, Option.getD_some]
  rw [List.mem_filter, mem_jsSetDedup]
  simp [and_comm, or_comm, List.mem_filter]

/-! ## Claim theorems -/

set_option maxRecDepth 4096 in
/-- C2: the post-generation and condense routers return `end` when the post is
empty, `condensePost` when the post length exceeds 280 and the retry counter
is below 3, and `humanReview` otherwise; concretely, a 320-character post with
counter 0 routes to condense, and a 260-character post with counter 1 routes
to human review. -/
theorem routers_follow_length_and_retry_policy :
    (∀ s : GeneratePostState,
      routeAfterPostGeneration s = specCondenseRoute s ∧
      routeAfterCondense s = specCondenseRoute s) ∧
    routeAfterPostGeneration { post := post320, condenseCount := 0 } =
      PostGenerationRoute.condensePost ∧
    routeAfterCondense { post := post260, condenseCount := 1 } =
      PostGenerationRoute.humanReview := by
  refine ⟨fun s => ⟨?_, ?_⟩, ?_, ?_⟩
  · rfl
  · unfold routeAfterCondense specCondenseRoute TWITTER_MAX_CHAR_LENGTH
      MAX_CONDENSE_ATTEMPTS
    split_ifs <;> first | rfl | omega
  · decide
  · decide

/-- C10: for the accumulated fields, an update whose value is undefined is not
a no-op: the reducers reset the canonical field to undefined, discarding
everything accumulated so far; a defined (possibly empty) array update is
merged per the stated policy (append for page contents, filtered set-union
for the link fields). -/
theorem reducers_reset_on_undefined_update :
    (∀ (isValid : String → Bool) (st : Option (List String)),
      sharedLinksReducer isValid st none = none) ∧
    (∀ st : Option (List String), pageContentsReducer st none = none) ∧
    (∀ (isValid : String → Bool) (l : List String),
      sharedLinksReducer isValid (some l) none ≠ some l) ∧
    (∀ st u : List String,
      pageContentsReducer (some st) (some u) = some (st ++ u)) ∧
    (∀ (isValid : String → Bool) (st u : List String) (x : String),
      x ∈ (sharedLinksReducer isValid (some st) (some u)).getD [] ↔
        ((x ∈ u ∧ x ≠ "") ∨ x ∈ st) ∧ keepUrl isValid x = true) := by
  refine ⟨fun _ _ => rfl, fun _ => rfl, fun _ _ => by simp [sharedLinksReducer],
    fun _ _ => rfl, mem_sharedLinksReducer⟩

/-- C9 counterexample: the persisted record's namespace in the source is
`["saved_data", "used_urls"]`, not `("used-links")` as the claim states. -/
theorem usedUrls_namespace_is_not_used_links :
    USED_URLS_NAMESPACE ≠ ["used-links"] := by decide

/-- C9 amended: every get/put/clear of the dedup cache addresses exactly the
namespace/key pair `(["saved_data", "used_urls"], "urls")`, whose value holds
the `data` string array; operations never touch any other address. -/
theorem storeOps_use_single_address (store : KeyedStore) (urls : List String)
    (addr : StoreAddr) (h : addr ≠ (USED_URLS_NAMESPACE, URLS_KEY)) :
    getSavedUrlsStore store = (store (USED_URLS_NAMESPACE, URLS_KEY)).getD [] ∧
    saveUsedUrlsStore store urls addr = store addr ∧
    clearSavedUrlsStore store addr = store addr ∧
    USED_URLS_NAMESPACE = ["saved_data", "used_urls"] ∧ URLS_KEY = "urls" := by
  refine ⟨rfl, ?_, ?_, rfl, rfl⟩
  · unfold saveUsedUrlsStore
    split
    · rfl
    · simp [h]
  · simp [clearSavedUrlsStore, h]

/-- C9 amended, witness at a concrete store and foreign address. -/
theorem storeOps_use_single_address_witness :
    ((["other"], "k") : StoreAddr) ≠ (USED_URLS_NAMESPACE, URLS_KEY) ∧
    saveUsedUrlsStore (fun _ => none) ["https://a.com"] (["other"], "k") =
      (fun _ => (none : Option (List String))) (["other"], "k") := by
  refine ⟨by decide, ?_⟩
  exact (storeOps_use_single_address (fun _ => none) ["https://a.com"]
    (["other"], "k") (by decide)).2.1

theorem mem_getSaved_save (store : KeyedStore) (A : List String) (x : String) :
    x ∈ getSavedUrlsStore (saveUsedUrlsStore store A) ↔
      x ∈ getSavedUrlsStore store ∨ x ∈ A := by
  unfold saveUsedUrlsStore
  split
  · simp_all
  · simp [getSavedUrlsStore, mem_jsSetDedup]

/-- C6: the dedup cache grows monotonically under put: after `put(A)` then
`put(B)` on any initial store, the stored set contains every element of `A`,
of `B`, and of the initially stored set, regardless of overlap (and, the
roles of `A` and `B` being symmetric in the hypothesis, regardless of the
order of the two calls). -/
theorem saveUsedUrls_monotonic (store : KeyedStore) (A B : List String)
    (x : String)
    (hx : x ∈ A ∨ x ∈ B ∨ x ∈ getSavedUrlsStore store) :
    x ∈ getSavedUrlsStore (saveUsedUrlsStore (saveUsedUrlsStore store A) B) := by
  rw [mem_getSaved_save, mem_getSaved_save]
  tauto

theorem mem_foldSharedLinks_aux (isValid : String → Bool) (x : String) :
    ∀ (us : List (List String)) (st : List String),
      (∀ y ∈ st, keepUrl isValid y = true) →
      (x ∈ ((us.foldl (fun st u => sharedLinksReducer isValid st (some u))
          (some st)).getD []) ↔
        x ∈ st ∨ ∃ u ∈ us, x ∈ u ∧ x ≠ "" ∧ keepUrl isValid x = true) := by
  intro us
  induction us with
  | nil => intro st _; simp
  | cons u us ih =>
    intro st hst
    have hstep : sharedLinksReducer isValid (some st) (some u) =
        some (filterUnwantedImageUrls isValid
          (jsSetDedup ((u.filter (fun x => x ≠ "")) ++ st))) := rfl
    have hmem : x ∈ filterUnwantedImageUrls isValid
        (jsSetDedup ((u.filter (fun x => x ≠ "")) ++ st)) ↔
        ((x ∈ u ∧ x ≠ "") ∨ x ∈ st) ∧ keepUrl isValid x = true := by
      have h := mem_sharedLinksReducer isValid st u x
      simpa [sharedLinksReducer] using h
    have hkeepAll : ∀ y ∈ filterUnwantedImageUrls isValid
        (jsSetDedup ((u.filter (fun x => x ≠ "")) ++ st)),
        keepUrl isValid y = true := by
      intro y hy
      exact (List.mem_filter.mp hy).2
    rw [List.foldl_cons, hstep, ih _ hkeepAll, hmem]
    constructor
    · rintro (⟨(⟨hxu, hne⟩ | hxst), hkeep⟩ | ⟨v, hv, hxv⟩)
      · exact Or.inr ⟨u, List.mem_cons_self u us, hxu, hne, hkeep⟩
      · exact Or.inl hxst
      · exact Or.inr ⟨v, List.mem_cons_of_mem u hv, hxv⟩
    · rintro (hxst | ⟨v, hv, hxv⟩)
      · exact Or.inl ⟨Or.inr hxst, hst x hxst⟩
      · rcases List.mem_cons.mp hv with rfl | hv'
        · exact Or.inl ⟨Or.inl ⟨hxv.1, hxv.2.1⟩, hxv.2.2⟩
        · exact Or.inr ⟨v, hv', hxv⟩

/-- C5: folding the same finite set of fan-out task outputs through the
set-valued reducer in any order yields the same final set: for any permutation
of the partial updates the merged value has the same elements, namely the
union of all contributed (truthy) links filtered against the blacklist. -/
theorem fanout_merge_order_independent (isValid : String → Bool)
    (us vs : List (List String)) (h : us.Perm vs) (x : String) :
    (x ∈ (foldSharedLinks isValid us).getD [] ↔
      x ∈ (foldSharedLinks isValid vs).getD []) ∧
    (x ∈ (foldSharedLinks isValid us).getD [] ↔
      ∃ u ∈ us, x ∈ u ∧ x ≠ "" ∧ keepUrl isValid x = true) := by
  have hu := mem_foldSharedLinks_aux isValid x us [] (by simp)
  have hv := mem_foldSharedLinks_aux isValid x vs [] (by simp)
  simp only [List.not_mem_nil, false_or] at hu hv
  refine ⟨?_, hu⟩
  rw [foldSharedLinks, hu, foldSharedLinks, hv]
  constructor
  · rintro ⟨v, hv', hx⟩; exact ⟨v, h.mem_iff.mp hv', hx⟩
  · rintro ⟨v, hv', hx⟩; exact ⟨v, h.mem_iff.mpr hv', hx⟩

/-- C5 witness: two concrete task outputs folded in both completion orders. -/
theorem fanout_merge_order_independent_witness :
    ([["https://a.com"], ["https://b.com"]] : List (List String)).Perm
      [["https://b.com"], ["https://a.com"]] ∧
    ("https://a.com" ∈ (foldSharedLinks (fun _ => true)
        [["https://a.com"], ["https://b.com"]]).getD [] ↔
      "https://a.com" ∈ (foldSharedLinks (fun _ => true)
        [["https://b.com"], ["https://a.com"]]).getD []) := by
  refine ⟨List.Perm.swap _ _ _, ?_⟩
  exact (fanout_merge_order_independent (fun _ => true) _ _
    (List.Perm.swap _ _ _) "https://a.com").1

/-- C8 counterexample: a failing store write inside `saveUsedUrls` is
re-thrown (`throw error` in its catch block), so the put side does not degrade
softly: at this concrete input the call propagates the exception. -/
theorem saveUsedUrls_rethrows_write_failure :
    saveUsedUrlsEnv ⟨true, Except.ok none, Except.error "store write failed"⟩
      ["https://a.com"] = Except.error "store write failed" := rfl

/-- C8 amended: the read side is soft — `getSavedUrls` returns `[]` when the
store is absent or the read throws, and `checkUrlsUsage` then treats every
candidate as new; `saveUsedUrls` returns without writing when the store is
absent, but a failing store write is re-thrown across the stage boundary. -/
theorem storeOps_soft_degradation (env : StoreEnv) (urls : List String) :
    (env.hasStore = false →
      getSavedUrlsEnv env = [] ∧ saveUsedUrlsEnv env urls = Except.ok none) ∧
    (∀ e, env.getOutcome = Except.error e → getSavedUrlsEnv env = []) ∧
    (getSavedUrlsEnv env = [] → checkUrlsUsageEnv env urls = (urls, [])) ∧
    (∀ e, saveUsedUrlsEnv env urls = Except.error e →
      env.putOutcome = Except.error e ∧ env.hasStore = true ∧ urls ≠ []) := by
  refine ⟨?_, ?_, ?_, ?_⟩
  · intro h
    constructor
    · simp [getSavedUrlsEnv, h]
    · simp [saveUsedUrlsEnv, h]
  · intro e he
    by_cases hs : env.hasStore <;> simp [getSavedUrlsEnv, hs, he]
  · intro h
    unfold checkUrlsUsageEnv checkUrlsUsage
    rw [h]
    simp
  · intro e he
    unfold saveUsedUrlsEnv at he
    by_cases hs : env.hasStore
    · by_cases hu : urls = []
      · simp [hs, hu] at he
      · simp only [hs, hu, Bool.not_true, Bool.false_eq_true, if_false,
          if_neg hu] at he
        cases hp : env.putOutcome with
        | error e' =>
          rw [hp] at he
          simp only [Except.error.injEq] at he
          subst he
          exact ⟨rfl, hs, hu⟩
        | ok v => rw [hp] at he; simp at he
    · simp [hs] at he

/-- C8 amended, witness: the store-absent configuration degrades to "treat
everything as new" without an exception. -/
theorem storeOps_soft_degradation_witness :
    getSavedUrlsEnv ⟨false, Except.ok none, Except.ok ()⟩ = [] ∧
    saveUsedUrlsEnv ⟨false, Except.ok none, Except.ok ()⟩ ["https://new.com"] =
      Except.ok none ∧
    checkUrlsUsageEnv ⟨false, Except.ok none, Except.ok ()⟩ ["https://new.com"] =
      (["https://new.com"], []) := by
  have h := storeOps_soft_degradation ⟨false, Except.ok none, Except.ok ()⟩
    ["https://new.com"]
  exact ⟨(h.1 rfl).1, (h.1 rfl).2, h.2.2.1 (h.1 rfl).1⟩

/-- C6 witness: a concrete overlapping pair of puts on the empty store. -/
theorem saveUsedUrls_monotonic_witness :
    ("https://used.com" ∈ (["https://used.com", "https://new.com"] : List String) ∨
      "https://used.com" ∈ (["https://used.com"] : List String) ∨
      "https://used.com" ∈ getSavedUrlsStore (fun _ => none)) ∧
    "https://used.com" ∈ getSavedUrlsStore
      (saveUsedUrlsStore
        (saveUsedUrlsStore (fun _ => none) ["https://used.com", "https://new.com"])
        ["https://used.com"]) := by
  refine ⟨by simp, ?_⟩
  exact saveUsedUrls_monotonic (fun _ => none)
    ["https://used.com", "https://new.com"] ["https://used.com"]
    "https://used.com" (by simp)

/-- C7: when the schedule-update stage receives a user-supplied date string
that fails to parse or fails validation, it returns an update carrying an
error string in the feedback (`userResponse`) field and no `scheduleDate`
key, so merging it leaves the stored schedule unchanged; the update carries a
new `scheduleDate` only when parsing and validation both succeed. -/
theorem updateScheduleDate_failure_leaves_schedule
    (parse : String → ParsedDateResult) (now : JsDate)
    (isValid : String → Bool) (s : GeneratePostState) :
    (∀ ur, s.userResponse = some ur → ur ≠ "" →
      (((parse ur).success = false ∨ (parse ur).date = none →
        updateScheduleDateUpdate parse now s =
          { userResponse :=
              some (some ("Error: " ++ (parse ur).error.getD "undefined")) }) ∧
      (∀ d, (parse ur).success = true → (parse ur).date = some d →
        (validateScheduleDate now d).valid = false →
        updateScheduleDateUpdate parse now s =
          { userResponse := some (some ("Error: " ++
              (validateScheduleDate now d).error.getD "undefined")) }))) ∧
    ((updateScheduleDateUpdate parse now s).scheduleDate = none →
      (applyUpdate isValid s (updateScheduleDateUpdate parse now s)).scheduleDate
        = s.scheduleDate) ∧
    (∀ d, (updateScheduleDateUpdate parse now s).scheduleDate = some d →
      ∃ ur, s.userResponse = some ur ∧ ur ≠ "" ∧ (parse ur).success = true ∧
        (parse ur).date = some d ∧ (validateScheduleDate now d).valid = true) := by
  refine ⟨?_, ?_, ?_⟩
  · intro ur hur hne
    have htru : jsStrTruthy s.userResponse = true := by
      simp [jsStrTruthy, hur, hne]
    constructor
    · intro hfail
      unfold updateScheduleDateUpdate
      rw [htru, hur]
      rcases hfail with hf | hf <;> simp [hf]
    · intro d hsucc hdate hval
      unfold updateScheduleDateUpdate
      rw [htru, hur]
      simp [hsucc, hdate, hval]
  · intro h0
    simp [applyUpdate, h0]
  · intro d hd
    unfold updateScheduleDateUpdate at hd
    by_cases htru : jsStrTruthy s.userResponse = true
    · cases hur : s.userResponse with
      | none => rw [hur] at htru; simp [jsStrTruthy] at htru
      | some ur =>
        have hne : ur ≠ "" := by
          rw [hur] at htru; simpa [jsStrTruthy] using htru
        rw [htru, hur] at hd
        simp only [Option.getD_some, Bool.not_true, Bool.false_eq_true,
          if_false] at hd
        split at hd
        · simp at hd
        · rename_i hcond
          have hsucc : (parse ur).success = true := by
            cases h : (parse ur).success
            · exact absurd (by simp [h]) hcond
            · rfl
          split at hd
          · simp at hd
          · rename_i d' hdate
            split at hd
            · simp at hd
            · rename_i hval
              have hvalid : (validateScheduleDate now d').valid = true := by
                cases h : (validateScheduleDate now d').valid
                · rw [h] at hval; simp at hval
                · rfl
              simp only [Option.some.injEq] at hd
              subst hd
              exact ⟨ur, rfl, hne, hsucc, hdate, hvalid⟩
    · rw [Bool.not_eq_true] at htru
      rw [htru] at hd
      simp at hd

/-- C7 witness: a past-dated input (epoch 0, clock at epoch 1000) is rejected
with the error surfaced via feedback and the stored priority-slot schedule
untouched. -/
theorem updateScheduleDate_failure_leaves_schedule_witness :
    ({ userResponse := some "yesterday",
        scheduleDate := some (DateType.slot "p1") } :
          GeneratePostState).userResponse = some "yesterday" ∧
    ("yesterday" : String) ≠ "" ∧
    (validateScheduleDate ⟨1000, 1, 9⟩ (DateType.date ⟨0, 1, 9⟩)).valid = false ∧
    updateScheduleDateUpdate
        (fun _ => ⟨true, some (DateType.date ⟨0, 1, 9⟩), none⟩) ⟨1000, 1, 9⟩
        { userResponse := some "yesterday",
          scheduleDate := some (DateType.slot "p1") } =
      { userResponse := some (some "Error: Schedule date must be in the future") } ∧
    (applyUpdate (fun _ => true)
        { userResponse := some "yesterday",
          scheduleDate := some (DateType.slot "p1") }
        (updateScheduleDateUpdate
          (fun _ => ⟨true, some (DateType.date ⟨0, 1, 9⟩), none⟩) ⟨1000, 1, 9⟩
          { userResponse := some "yesterday",
            scheduleDate := some (DateType.slot "p1") })).scheduleDate =
      some (DateType.slot "p1") := by
  have h := updateScheduleDate_failure_leaves_schedule
    (fun _ => ⟨true, some (DateType.date ⟨0, 1, 9⟩), none⟩) ⟨1000, 1, 9⟩
    (fun _ => true)
    { userResponse := some "yesterday",
      scheduleDate := some (DateType.slot "p1") }
  have h1 := (h.1 "yesterday" rfl (by decide)).2 (DateType.date ⟨0, 1, 9⟩)
    rfl rfl (by decide)
  have h0 : (updateScheduleDateUpdate
      (fun _ => ⟨true, some (DateType.date ⟨0, 1, 9⟩), none⟩) ⟨1000, 1, 9⟩
      { userResponse := some "yesterday",
        scheduleDate := some (DateType.slot "p1") }).scheduleDate = none := by
    rw [h1]
  exact ⟨rfl, by decide, by decide, h1.trans (by decide),
    (h.2.1 h0).trans rfl⟩

/-- C3 (code-bug evidence): a typed `accept` always dispatches to the
schedule/publish stage and a typed `ignore` to the terminal route; a malformed
resume payload is parsed as an unclassified response and dispatched to the
route name `unknownResponse`, which `HUMAN_RESPONSE_ROUTE_MAP` maps to a node
named `unknownResponse` — but the final builder in `graph.ts` never registers
such a node (and wires no loop-back edge), so the claimed clear-and-loop-back
cannot run. -/
theorem humanReview_unknown_response_not_wired
    (jsonParse : String → Option JsVal) (isValid : String → Bool)
    (s : GeneratePostState) (h : s.post ≠ "") :
    (∀ args : List (String × JsVal),
      humanReviewNodeUpdate jsonParse s
          (.jobj (("type", .jstr "accept") :: args)) =
        { next := some (some .schedulePost) } ∧
      routeAfterHumanResponse (applyUpdate isValid s
          (humanReviewNodeUpdate jsonParse s
            (.jobj (("type", .jstr "accept") :: args)))) =
        HumanResponseRoute.schedulePost) ∧
    (∀ args : List (String × JsVal),
      humanReviewNodeUpdate jsonParse s
          (.jobj (("type", .jstr "ignore") :: args)) =
        { next := some (some .end_) } ∧
      routeAfterHumanResponse (applyUpdate isValid s
          (humanReviewNodeUpdate jsonParse s
            (.jobj (("type", .jstr "ignore") :: args)))) =
        HumanResponseRoute.end_) ∧
    ((humanReviewNodeUpdate jsonParse s (.jobj [("foo", .jnum 1)])).next =
        some (some .unknownResponse) ∧
      routeAfterHumanResponse (applyUpdate isValid s
          (humanReviewNodeUpdate jsonParse s (.jobj [("foo", .jnum 1)]))) =
        HumanResponseRoute.unknownResponse ∧
      HUMAN_RESPONSE_ROUTE_MAP.lookup "unknownResponse" =
        some "unknownResponse" ∧
      "unknownResponse" ∉ generatePostGraphNodes) := by
  have haccept : ∀ args : List (String × JsVal),
      humanReviewNodeUpdate jsonParse s
        (.jobj (("type", .jstr "accept") :: args)) =
        { next := some (some .schedulePost) } := by
    intro args
    simp [humanReviewNodeUpdate, h, parseHumanResponse, typedResponseOf,
      getField, List.find?]
  have hignore : ∀ args : List (String × JsVal),
      humanReviewNodeUpdate jsonParse s
        (.jobj (("type", .jstr "ignore") :: args)) =
        { next := some (some .end_) } := by
    intro args
    simp [humanReviewNodeUpdate, h, parseHumanResponse, typedResponseOf,
      getField, List.find?]
  have hunknown : (humanReviewNodeUpdate jsonParse s
      (.jobj [("foo", .jnum 1)])).next = some (some .unknownResponse) := by
    simp [humanReviewNodeUpdate, h, parseHumanResponse, typedResponseOf,
      getField, List.find?, jsTruthy, jsTypeofObject, jsOr, truthyOpt]
  refine ⟨fun args => ⟨haccept args, ?_⟩, fun args => ⟨hignore args, ?_⟩,
    hunknown, ?_, by decide, by decide⟩
  · rw [haccept args]
    simp [applyUpdate, routeAfterHumanResponse]
  · rw [hignore args]
    simp [applyUpdate, routeAfterHumanResponse]
  · have : (applyUpdate isValid s (humanReviewNodeUpdate jsonParse s
        (.jobj [("foo", .jnum 1)]))).next = some .unknownResponse := by
      simp [applyUpdate, hunknown]
    simp [routeAfterHumanResponse, this]

/-- C3 witness: the concrete malformed payload at a nonempty post. -/
theorem humanReview_unknown_response_not_wired_witness :
    ({ post := "Hello" } : GeneratePostState).post ≠ "" ∧
    (humanReviewNodeUpdate (fun _ => none) { post := "Hello" }
        (.jobj [("foo", .jnum 1)])).next = some (some .unknownResponse) ∧
    "unknownResponse" ∉ generatePostGraphNodes := by
  have h := humanReview_unknown_response_not_wired (fun _ => none)
    (fun _ => true) { post := "Hello" } (by decide)
  exact ⟨by decide, h.2.2.1, h.2.2.2.2.2⟩

/-! ## Lemmas for the retry-counter invariant -/

theorem route_pg_condense {s : GeneratePostState}
    (h : routeAfterPostGeneration s = .condensePost) :
    s.condenseCount < 3 := by
  unfold routeAfterPostGeneration at h
  split at h
  · exact absurd h (by simp)
  · split at h
    · rename_i hc
      simpa [MAX_CONDENSE_ATTEMPTS] using hc.2
    · exact absurd h (by simp)

theorem route_cd_condense {s : GeneratePostState}
    (h : routeAfterCondense s = .condensePost) :
    s.condenseCount < 3 := by
  unfold routeAfterCondense at h
  split at h
  · exact absurd h (by simp)
  · split at h
    · exact absurd h (by simp)
    · split at h
      · rename_i hc
        simpa [MAX_CONDENSE_ATTEMPTS] using hc
      · exact absurd h (by simp)

theorem route_rw_condense {s : GeneratePostState}
    (h : routeAfterRewrite s = .condensePost) :
    s.condenseCount < 3 := by
  unfold routeAfterRewrite at h
  split at h
  · exact absurd h (by simp)
  · split at h
    · rename_i hc
      simpa [MAX_CONDENSE_ATTEMPTS] using hc.2
    · exact absurd h (by simp)

theorem postGenTarget_condense {r : PostGenerationRoute}
    (h : postGenTarget r = some GNode.condensePost) :
    r = PostGenerationRoute.condensePost := by
  cases r <;> simp_all [postGenTarget]

theorem humanTarget_ne_condense (r : HumanResponseRoute) :
    humanTarget r ≠ some GNode.condensePost := by
  cases r <;> simp [humanTarget]

theorem urlCheckTarget_ne_condense (u : GeneratePostUpdate) :
    urlCheckTarget u ≠ some GNode.condensePost := by
  unfold urlCheckTarget
  split <;> simp

theorem applyUpdate_cc (isValid : String → Bool) (s : GeneratePostState)
    (u : GeneratePostUpdate) :
    (applyUpdate isValid s u).condenseCount =
      u.condenseCount.getD s.condenseCount := rfl

theorem cc_checkUrlsUpdate (sk : Bool) (sv : List String)
    (s : GeneratePostState) :
    (checkUrlsUpdate sk sv s).condenseCount = none ∨
      (checkUrlsUpdate sk sv s).condenseCount = some 0 := by
  unfold checkUrlsUpdate
  dsimp only
  split_ifs <;> simp

theorem cc_verifyLinksUpdate (s : GeneratePostState)
    (pc rl io : Option (List String)) :
    (verifyLinksUpdate s pc rl io).condenseCount = none := by
  unfold verifyLinksUpdate
  split <;> rfl

theorem cc_generateReportUpdate (s : GeneratePostState) (r : LLMOutcome) :
    (generateReportUpdate s r).condenseCount = none := by
  cases r <;> unfold generateReportUpdate <;> dsimp only <;>
    split_ifs <;> rfl

theorem cc_generatePostUpdate (s : GeneratePostState) (r : LLMOutcome) :
    (generatePostUpdate s r).condenseCount = none ∨
      (generatePostUpdate s r).condenseCount = some 0 := by
  cases r <;> unfold generatePostUpdate <;> split_ifs <;> simp

theorem cc_condensePostUpdate (s : GeneratePostState) (r : LLMOutcome) :
    (condensePostUpdate s r).condenseCount = some (s.condenseCount + 1) := by
  cases r <;> unfold condensePostUpdate <;> split_ifs <;> rfl

theorem cc_rewritePostUpdate (s : GeneratePostState) (r : LLMOutcome) :
    (rewritePostUpdate s r).condenseCount = none ∨
      (rewritePostUpdate s r).condenseCount = some 0 := by
  cases r <;> unfold rewritePostUpdate <;> split_ifs <;> simp

theorem cc_humanReviewUpdate (jp : String → Option JsVal)
    (s : GeneratePostState) (resp : JsVal) :
    (humanReviewNodeUpdate jp s resp).condenseCount = none := by
  unfold humanReviewNodeUpdate
  split
  · rfl
  · dsimp only
    split <;>
      first
        | rfl
        | (split <;> first | rfl | (split <;> rfl))

theorem cc_updateScheduleDateUpdate (parse : String → ParsedDateResult)
    (now : JsDate) (s : GeneratePostState) :
    (updateScheduleDateUpdate parse now s).condenseCount = none := by
  unfold updateScheduleDateUpdate
  split
  · rfl
  · dsimp only
    split
    · rfl
    · split
      · rfl
      · split <;> rfl

/-- C1: in every state reachable by the generate-post pipeline (starting from
`condenseCount = 0` and stepping through the nodes as wired by the routers),
the retry counter satisfies `0 ≤ condenseCount ≤ 3`; `condensePost` is only
ever entered with `condenseCount < 3`, so its increment never pushes the
counter past 3; and the success branches of `generatePost` and `rewritePost`
(the ones that freshly generate or rewrite the post) reset it to 0. -/
theorem condense_retry_invariant (env : PipelineEnv) (links : List String)
    (c : Cfg) (h : Reachable env links c) :
    (0 ≤ c.state.condenseCount ∧ c.state.condenseCount ≤ 3 ∧
      (c.node = some GNode.condensePost → c.state.condenseCount < 3)) ∧
    (∀ (s : GeneratePostState) (t : String),
      ¬(s.report = "" ∨ s.report.trim = "") →
      (generatePostUpdate s (LLMOutcome.success t)).condenseCount = some 0) ∧
    (∀ (s : GeneratePostState) (t : String), jsStrTruthy s.userResponse = true →
      (rewritePostUpdate s (LLMOutcome.success t)).condenseCount = some 0) := by
  refine ⟨?_, ?_, ?_⟩
  · induction h with
    | init =>
      refine ⟨le_refl 0, by norm_num [initialState], fun hn => ?_⟩
      simp at hn
    | step hr hs ih =>
      obtain ⟨h0, h3, hguard⟩ := ih
      cases hs with
      | checkUrls s =>
        dsimp only at h0 h3 ⊢
        rcases cc_checkUrlsUpdate env.skipUsedUrlsCheck env.savedUrls s
          with hc | hc <;>
          refine ⟨?_, ?_, fun hn =>
            absurd hn (urlCheckTarget_ne_condense _)⟩ <;>
          rw [applyUpdate_cc, hc] <;> simp <;> omega
      | verifyLinks s pc rl io =>
        dsimp only at h0 h3 ⊢
        refine ⟨?_, ?_, fun hn => by simp at hn⟩ <;>
          rw [applyUpdate_cc, cc_verifyLinksUpdate] <;> simpa
      | generateReport s r =>
        dsimp only at h0 h3 ⊢
        refine ⟨?_, ?_, fun hn => by simp at hn⟩ <;>
          rw [applyUpdate_cc, cc_generateReportUpdate] <;> simpa
      | generatePost s r =>
        dsimp only at h0 h3 ⊢
        have hcc : (applyUpdate env.isValidUrl s
            (generatePostUpdate s r)).condenseCount = s.condenseCount ∨
            (applyUpdate env.isValidUrl s
              (generatePostUpdate s r)).condenseCount = 0 := by
          rcases cc_generatePostUpdate s r with hc | hc <;>
            rw [applyUpdate_cc, hc] <;> simp
        refine ⟨?_, ?_, fun hn => route_pg_condense (postGenTarget_condense hn)⟩ <;>
          rcases hcc with hc | hc <;> rw [hc] <;> omega
      | condensePost s r =>
        dsimp only at h0 h3 hguard ⊢
        have hlt : s.condenseCount < 3 := hguard rfl
        have hcc : (applyUpdate env.isValidUrl s
            (condensePostUpdate s r)).condenseCount = s.condenseCount + 1 := by
          rw [applyUpdate_cc, cc_condensePostUpdate]; rfl
        refine ⟨?_, ?_, fun hn => route_cd_condense (postGenTarget_condense hn)⟩ <;>
          rw [hcc] <;> omega
      | humanReview s resp =>
        dsimp only at h0 h3 ⊢
        refine ⟨?_, ?_, fun hn => absurd hn (humanTarget_ne_condense _)⟩ <;>
          rw [applyUpdate_cc, cc_humanReviewUpdate] <;> simpa
      | unknownResponse s =>
        dsimp only at h0 h3 ⊢
        refine ⟨?_, ?_, fun hn => by simp at hn⟩ <;>
          rw [applyUpdate_cc] <;> simpa [unknownResponseNodeUpdate]
      | rewritePost s r =>
        dsimp only at h0 h3 ⊢
        have hcc : (applyUpdate env.isValidUrl s
            (rewritePostUpdate s r)).condenseCount = s.condenseCount ∨
            (applyUpdate env.isValidUrl s
              (rewritePostUpdate s r)).condenseCount = 0 := by
          rcases cc_rewritePostUpdate s r with hc | hc <;>
            rw [applyUpdate_cc, hc] <;> simp
        refine ⟨?_, ?_, fun hn => route_rw_condense (postGenTarget_condense hn)⟩ <;>
          rcases hcc with hc | hc <;> rw [hc] <;> omega
      | updateScheduleDate s =>
        dsimp only at h0 h3 ⊢
        refine ⟨?_, ?_, fun hn => by simp at hn⟩ <;>
          rw [applyUpdate_cc, cc_updateScheduleDateUpdate] <;> simpa
      | schedulePost s =>
        dsimp only at h0 h3 ⊢
        refine ⟨?_, ?_, fun hn => by simp at hn⟩ <;>
          rw [applyUpdate_cc] <;> simpa [schedulePostUpdate]
  · intro s t hrep
    unfold generatePostUpdate
    rw [if_neg (by simpa using hrep)]
  · intro s t hfb
    unfold rewritePostUpdate
    rw [hfb]
    rfl

/-- C1 witness: the invariant instantiated at the initial configuration of a
concrete run. -/
theorem condense_retry_invariant_witness :
    (0 ≤ (Cfg.mk (some GNode.checkUrls)
        (initialState ["https://a.com"])).state.condenseCount ∧
      (Cfg.mk (some GNode.checkUrls)
        (initialState ["https://a.com"])).state.condenseCount ≤ 3 ∧
      ((Cfg.mk (some GNode.checkUrls)
          (initialState ["https://a.com"])).node = some GNode.condensePost →
        (Cfg.mk (some GNode.checkUrls)
          (initialState ["https://a.com"])).state.condenseCount < 3)) ∧
    (∀ (s : GeneratePostState) (t : String),
      ¬(s.report = "" ∨ s.report.trim = "") →
      (generatePostUpdate s (LLMOutcome.success t)).condenseCount = some 0) ∧
    (∀ (s : GeneratePostState) (t : String), jsStrTruthy s.userResponse = true →
      (rewritePostUpdate s (LLMOutcome.success t)).condenseCount = some 0) :=
  condense_retry_invariant
    ⟨false, [], fun _ => true, fun _ => none,
      fun _ => ⟨false, none, none⟩, ⟨0, 0, 0⟩⟩
    ["https://a.com"] _ Reachable.init

/-! ## Lemmas and theorem for the all-duplicates run -/

theorem checkUrls_all_duplicates (links saved : List String)
    (hne : links ≠ []) (hdup : ∀ l ∈ links, l ∈ saved)
    (s : GeneratePostState) (hs : s.links = links) :
    checkUrlsUpdate false saved s =
      { next := some (some .end_)
        userResponse := some
          (some "All provided URLs have already been used for post generation")
        status := some "url_check_all_duplicates" } := by
  have hnil : (checkUrlsUsage saved links).1 = [] := by
    unfold checkUrlsUsage
    exact List.filter_eq_nil_iff.mpr (fun a ha => by simp [hdup a ha])
  unfold checkUrlsUpdate
  rw [hs]
  simp [hne, hnil]

/-- C4: when the dedup check runs (not skipped) and every input link is in the
used-links cache, the run takes the terminal route directly after `checkUrls`:
every reachable configuration is the initial one or the terminal one, so the
report-generation, post-generation and schedule/publish nodes never execute,
and the `checkUrls` update carries nothing beyond the `status`, `next` and
`userResponse` fields. -/
theorem dedup_all_duplicates_terminal (env : PipelineEnv)
    (links : List String) (c : Cfg)
    (hskip : env.skipUsedUrlsCheck = false) (hne : links ≠ [])
    (hdup : ∀ l ∈ links, l ∈ env.savedUrls)
    (h : Reachable env links c) :
    (c = ⟨some .checkUrls, initialState links⟩ ∨
      c = ⟨none, applyUpdate env.isValidUrl (initialState links)
            (checkUrlsUpdate false env.savedUrls (initialState links))⟩) ∧
    c.node ≠ some GNode.generateReport ∧ c.node ≠ some GNode.generatePost ∧
    c.node ≠ some GNode.schedulePost ∧
    checkUrlsUpdate false env.savedUrls (initialState links) =
      { next := some (some .end_)
        userResponse := some
          (some "All provided URLs have already been used for post generation")
        status := some "url_check_all_duplicates" } := by
  have hupd := checkUrls_all_duplicates links env.savedUrls hne hdup
    (initialState links) rfl
  have hchar : c = ⟨some .checkUrls, initialState links⟩ ∨
      c = ⟨none, applyUpdate env.isValidUrl (initialState links)
            (checkUrlsUpdate false env.savedUrls (initialState links))⟩ := by
    induction h with
    | init => exact Or.inl rfl
    | step hr hs ih =>
      rcases ih with hc | hc
      · rw [hc] at hs
        cases hs with
        | checkUrls s =>
          dsimp only
          rw [hskip]
          right
          have htarget : urlCheckTarget
              (checkUrlsUpdate false env.savedUrls (initialState links)) =
              none := by
            rw [hupd]
            rfl
          rw [htarget]
      · rw [hc] at hs
        cases hs
  refine ⟨hchar, ?_, ?_, ?_, hupd⟩ <;>
    rcases hchar with hc | hc <;> rw [hc] <;> simp

/-- C4 witness: a concrete run whose single input link is already cached. -/
theorem dedup_all_duplicates_terminal_witness :
    (⟨false, ["https://used.com"], fun _ => true, fun _ => none,
        fun _ => ⟨false, none, none⟩,
        ⟨0, 0, 0⟩⟩ : PipelineEnv).skipUsedUrlsCheck = false ∧
    (["https://used.com"] : List String) ≠ [] ∧
    (∀ l ∈ (["https://used.com"] : List String), l ∈ ["https://used.com"]) ∧
    ((⟨some .checkUrls, initialState ["https://used.com"]⟩ : Cfg) =
        ⟨some .checkUrls, initialState ["https://used.com"]⟩ ∨
      (⟨some .checkUrls, initialState ["https://used.com"]⟩ : Cfg) =
        ⟨none, applyUpdate (fun _ => true) (initialState ["https://used.com"])
          (checkUrlsUpdate false ["https://used.com"]
            (initialState ["https://used.com"]))⟩) := by
  have h := dedup_all_duplicates_terminal
    ⟨false, ["https://used.com"], fun _ => true, fun _ => none,
      fun _ => ⟨false, none, none⟩, ⟨0, 0, 0⟩⟩
    ["https://used.com"] ⟨some .checkUrls, initialState ["https://used.com"]⟩
    rfl (by decide) (by decide) Reachable.init
  exact ⟨rfl, by decide, by decide, h.1⟩

end SMA
